import Mathlib

/-!
Verification development for the SEC EDGAR filing scraper
(src/backend/scraper.py of christopherfkk/company-filing-scraper).

The Python source is shallowly embedded: pure fragments become Lean
functions, the pandas DataFrame pipeline of make_df_for_single_10k is
modelled as explicit list transformations, and fallible operations
(IndexError, ValueError from strptime, length-mismatch on column
assignment) are modelled with Except.  Machine floats only ever carry
exactly-representable small decimals in the verified scenarios, so float
values are modelled with Rat.
-/

/-- Whitespace set of Python's str.strip() / re \s, restricted to the ASCII
whitespace characters (unicode whitespace is not modelled; the scraper only
handles ASCII cell text). -/
def pyIsSpace (c : Char) : Bool :=
  c = ' ' || c = '\t' || c = '\n' || c = '\r' || c = '\x0b' || c = '\x0c'

/-- Model of Python str.strip(): remove leading and trailing whitespace. -/
def pyStrip (s : String) : String :=
  String.mk (((s.data.dropWhile pyIsSpace).reverse.dropWhile pyIsSpace).reverse)

/-- Model of Python str.upper() restricted to ASCII letters (the tickers
and cell text handled by the scraper are ASCII). -/
def pyUpper (s : String) : String := String.mk (s.data.map Char.toUpper)

/-- Model of Python str.split(sep) with a one-character separator: split at
every occurrence, keeping empty pieces. -/
def splitChar (sep : Char) : List Char → List (List Char)
  | [] => [[]]
  | c :: rest =>
    let r := splitChar sep rest
    if c = sep then [] :: r
    else
      match r with
      | h :: t => (c :: h) :: t
      | [] => [[c]]

/-- Model of Python sep.join for a one-character separator. -/
def joinChars (sep : Char) : List (List Char) → List Char
  | [] => []
  | [p] => p
  | p :: ps => p ++ sep :: joinChars sep ps

/-- Model of Python str.zfill(width): left-pad with zeros to the given
width, keeping a leading sign in front of the padding. -/
def zfill (width : Nat) (s : String) : String :=
  if s.length < width then
    match s.data with
    | c :: rest =>
      if c = '+' ∨ c = '-' then
        String.mk (c :: (List.replicate (width - s.length) '0' ++ rest))
      else
        String.mk (List.replicate (width - s.length) '0' ++ s.data)
    | [] => String.mk (List.replicate width '0')
  else s

/-- Numeric value of a decimal digit character. -/
def digitVal (c : Char) : Nat := c.toNat - '0'.toNat

/-- Value of a big-endian list of decimal digit characters. -/
def digitsToNat (cs : List Char) : Nat :=
  cs.foldl (fun acc c => acc * 10 + digitVal c) 0

/-- Lower-cased English month abbreviations, as matched by strptime's %b
directive (C locale, matched case-insensitively). -/
def monthAbbrevLower : List String :=
  ["jan", "feb", "mar", "apr", "may", "jun", "jul", "aug", "sep", "oct", "nov", "dec"]

/-- Consume a three-letter month abbreviation (case-insensitive), returning
the month number (1-12) and the remaining input. -/
def month3 (cs : List Char) : Option (Nat × List Char) :=
  match cs with
  | a :: b :: c :: rest =>
    match monthAbbrevLower.findIdx?
        (fun m => m = String.mk [a.toLower, b.toLower, c.toLower]) with
    | some i => some (i + 1, rest)
    | none => none
  | _ => none

/-- Consume the whitespace run demanded by a literal space in a strptime
format (compiled to \s+: at least one whitespace character). -/
def takeWs1 (cs : List Char) : Option (List Char) :=
  match cs with
  | c :: rest => if pyIsSpace c then some (rest.dropWhile pyIsSpace) else none
  | [] => none

/-- Consume a day-of-month as matched by strptime's %d directive
(one or two digits, value 1-31; "00" is rejected by the directive's
character classes). -/
def day2 (cs : List Char) : Option (Nat × List Char) :=
  match cs with
  | a :: b :: rest =>
    if a.isDigit ∧ b.isDigit then
      let d := digitVal a * 10 + digitVal b
      if 1 ≤ d ∧ d ≤ 31 then some (d, rest) else none
    else if a.isDigit ∧ 1 ≤ digitVal a then some (digitVal a, b :: rest)
    else none
  | [a] => if a.isDigit ∧ 1 ≤ digitVal a then some (digitVal a, []) else none
  | [] => none

/-- Consume exactly four digits, as matched by strptime's %Y directive. -/
def year4 (cs : List Char) : Option (Nat × List Char) :=
  match cs with
  | a :: b :: c :: d :: rest =>
    if a.isDigit ∧ b.isDigit ∧ c.isDigit ∧ d.isDigit then
      some (((digitVal a * 10 + digitVal b) * 10 + digitVal c) * 10 + digitVal d, rest)
    else none
  | _ => none

/-- Gregorian leap-year test, as used by Python's datetime module. -/
def isLeapYear (y : Nat) : Bool :=
  (y % 4 == 0 && y % 100 != 0) || y % 400 == 0

/-- Number of days in a month, as validated by datetime's constructor. -/
def daysInMonth (y m : Nat) : Nat :=
  if m = 2 then (if isLeapYear y then 29 else 28)
  else if m = 4 ∨ m = 6 ∨ m = 9 ∨ m = 11 then 30
  else 31

/-- Calendar date produced by datetime.strptime. -/
structure PyDate where
  year : Nat
  month : Nat
  day : Nat
deriving DecidableEq, Repr

/-- Model of datetime.strptime(s, the fixed format of scraper.py line 246):
abbreviated month, literal dot, whitespace, day, comma, whitespace,
four-digit year, end of input, followed by datetime's calendar validation.
Returns none where CPython raises ValueError. -/
def strptimeBDY (s : String) : Option PyDate :=
  (month3 s.data).bind (fun p =>
    match p.2 with
    | '.' :: r2 =>
      (takeWs1 r2).bind (fun r3 =>
        (day2 r3).bind (fun q =>
          match q.2 with
          | ',' :: r5 =>
            (takeWs1 r5).bind (fun r6 =>
              match year4 r6 with
              | some (y, []) =>
                if 1 ≤ y ∧ q.1 ≤ daysInMonth y p.1 then
                  some (PyDate.mk y p.1 q.1)
                else none
              | _ => none)
          | _ => none))
    | _ => none)

/-- Model of Python float(s) on finite decimal literals: optional
surrounding whitespace, optional sign, digits with optional fraction and
optional exponent.  The special forms inf/nan and digit-group underscores
are not modelled (none arise in statement cell text).  The result is exact,
as a rational. -/
def pyFloat (s : String) : Option Rat :=
  let cs := (pyStrip s).data
  let sgn : Int := match cs with | '-' :: _ => -1 | _ => 1
  let cs1 := match cs with | '-' :: r => r | '+' :: r => r | _ => cs
  let ipart := cs1.takeWhile Char.isDigit
  let r2 := cs1.dropWhile Char.isDigit
  let hasDot : Bool := match r2 with | '.' :: _ => true | _ => false
  let fr := match r2 with | '.' :: rr => rr | _ => r2
  let fpart := if hasDot then fr.takeWhile Char.isDigit else []
  let r3 := if hasDot then fr.dropWhile Char.isDigit else r2
  if ipart.length + fpart.length = 0 then none
  else
    let mant : Int := sgn * ((digitsToNat ipart * 10 ^ fpart.length + digitsToNat fpart : Nat) : Int)
    let valueAt : Int → Rat := fun eadj =>
      let ex : Int := eadj - (fpart.length : Int)
      if 0 ≤ ex then mkRat (mant * (10 : Int) ^ ex.toNat) 1
      else mkRat mant ((10 : Nat) ^ (-ex).toNat)
    match r3 with
    | [] => some (valueAt 0)
    | e :: r4 =>
      if e = 'e' ∨ e = 'E' then
        let esgn : Int := match r4 with | '-' :: _ => -1 | _ => 1
        let r5 := match r4 with | '-' :: r => r | '+' :: r => r | _ => r4
        let ed := r5.takeWhile Char.isDigit
        if ed ≠ [] ∧ r5.dropWhile Char.isDigit = [] then
          some (valueAt (esgn * ((digitsToNat ed : Nat) : Int)))
        else none
      else none

/-- Model of the two chained pandas regex replacements of scraper.py lines
258-259 on one string cell: delete every occurrence of the characters
dollar, comma and closing parenthesis, then turn every opening parenthesis
into a minus sign. -/
def cleanChars (cs : List Char) : List Char :=
  (cs.filter (fun c => !(c = '$' || c = ',' || c = ')'))).map
    (fun c => if c = '(' then '-' else c)

/-- String form of cleanChars. -/
def cleanStr (s : String) : String := String.mk (cleanChars s.data)

/-- One tr element of a statement document's table, abstracted to what the
scraper inspects: the text of its th cells, the number of strong tags
anywhere in the row, and the text of its td cells (document order). -/
structure HtmlRow where
  th : List String
  strong : Nat
  td : List String
deriving DecidableEq, Repr

/-- The four branches of the row classifier (scraper.py lines 213-228). -/
inductive RowClass where
  | data
  | sectionLabel
  | header
  | error
deriving DecidableEq, Repr

/-- Row classification of scraper.py lines 213-228, in source branch order:
no th and no strong is a data row; no th with strong is a section-label
row; th present is a header row; anything else is the error branch. -/
def classifyRow (r : HtmlRow) : RowClass :=
  if r.th.length = 0 ∧ r.strong = 0 then RowClass.data
  else if r.th.length = 0 ∧ r.strong ≠ 0 then RowClass.sectionLabel
  else if r.th.length ≠ 0 then RowClass.header
  else RowClass.error

/-- Guard of the data-row branch (line 213). -/
def guardData (r : HtmlRow) : Prop := r.th.length = 0 ∧ r.strong = 0

/-- Guard of the section-label branch (line 218). -/
def guardSection (r : HtmlRow) : Prop := r.th.length = 0 ∧ r.strong ≠ 0

/-- Guard of the header branch (line 223). -/
def guardHeader (r : HtmlRow) : Prop := r.th.length ≠ 0

/-- Structured record of one statement document (the dict of scraper.py
line 200): ordered header rows, section labels, and data rows. -/
structure RawTableRecord where
  headers : List (List String)
  sections : List String
  data : List (List String)
deriving DecidableEq, Repr

/-- Exceptions of the modelled pipeline fragments: IndexError from list
indexing, ValueError from the column assignment length mismatch, and
ValueError from datetime.strptime. -/
inductive PdError where
  | indexError
  | lengthMismatch
  | dateParseError
deriving DecidableEq, Repr

/-- Fold of scraper.py lines 207-228 over the rows of one statement table:
classify each row and append its parsed record to the accumulating
RawTableRecord.  A section row with no td cells hits the cols[0] indexing
of line 219, an IndexError.  The unreachable error branch prints and
continues, leaving the record unchanged. -/
def scrapeStatement (rows : List HtmlRow) : Except PdError RawTableRecord :=
  rows.foldlM
    (fun acc row =>
      if row.th.length = 0 ∧ row.strong = 0 then
        Except.ok (RawTableRecord.mk acc.headers acc.sections
          (acc.data ++ [row.td.map (fun t => pyStrip t)]))
      else if row.th.length = 0 ∧ row.strong ≠ 0 then
        match row.td with
        | [] => Except.error PdError.indexError
        | c :: _ => Except.ok (RawTableRecord.mk acc.headers
            (acc.sections ++ [pyStrip c]) acc.data)
      else if row.th.length ≠ 0 then
        Except.ok (RawTableRecord.mk (acc.headers ++ [row.th.map (fun t => pyStrip t)])
          acc.sections acc.data)
      else
        Except.ok acc)
    (RawTableRecord.mk [] [] [])

/-- Document URLs fetched for one filing (scraper.py lines 191-194): the
fixed slots R2.htm through R10.htm under the filing base URL. -/
def statements_urls (base_url : String) : List String :=
  (List.range' 2 9).map (fun i => base_url ++ "/" ++ ("R" ++ toString i ++ ".htm"))

set_option linter.unusedVariables false in
/-- Model of SECScraper.scrape_data_for_single_10k (scraper.py lines
142-232), active code path only: the statement-name mapping parameter is
received but never consulted (the name-based resolution is commented out in
the source); the fixed slots R2..R10 are fetched and each document's table
rows are folded through the row classifier.  fetch abstracts the HTTP GET
plus BeautifulSoup table extraction for one document URL. -/
def scrape_data_for_single_10k (base_url : String) (mapping : List (String × String))
    (fetch : String → List HtmlRow) : Except PdError (List RawTableRecord) :=
  (statements_urls base_url).mapM (fun u => scrapeStatement (fetch u))

/-- Entry of the static CIK lookup table (backend/static/cik.json): a
numeric registrant key, a ticker symbol, and a company title. -/
structure LookupEntry where
  cik_str : Nat
  ticker : String
  title : String
deriving DecidableEq, Repr

/-- Failure of the pandas .loc lookup on a missing ticker (KeyError); the
spec's error taxonomy calls it NotFoundError. -/
inductive LookupError where
  | notFound
deriving DecidableEq, Repr

/-- External effects a scraper method can perform. -/
inductive Effect where
  | fileRead (path : String)
  | httpGet (url : String)
deriving DecidableEq, Repr

/-- Model of SECScraper.get_ticker (scraper.py lines 77-78): trim and
upper-case the stored ticker. -/
def get_ticker (ticker : String) : String := pyUpper (pyStrip ticker)

/-- Model of SECScraper.find_cik (scraper.py lines 80-96), with the parsed
lookup table injected in place of the JSON file read.  The result pairs the
lookup outcome with the trace of external effects the method performs: the
single local file read of line 83 and no HTTP request.  The cik column is
stringified and zero-filled to width 10 (line 88), the table is keyed by
its raw ticker field (line 89), and the query key is the stripped
upper-cased ticker (lines 92-93); a missing key raises KeyError. -/
def find_cik (lookup : List LookupEntry) (ticker : String) :
    Except LookupError (String × String) × List Effect :=
  let effects := [Effect.fileRead ("backend/static/cik.json")]
  let key := pyUpper (pyStrip ticker)
  match lookup.find? (fun e => e.ticker == key) with
  | some e => (Except.ok (zfill 10 (Nat.repr e.cik_str), e.title), effects)
  | none => (Except.error LookupError.notFound, effects)

/-- Mutable state of an SECScraper instance (scraper.py lines 35-41). -/
structure ScraperState where
  ticker : String
  cik : Option String
  company : Option String
  all_10ks_summary_urls : List String
  all_10ks_urls : List String
deriving DecidableEq, Repr

/-- SECScraper.__init__ (scraper.py lines 35-41). -/
def initScraper (ticker : String) : ScraperState :=
  ScraperState.mk ticker none none [] []

/-- Transform of one summary URL (scraper.py lines 121-122): split on
slashes, drop the last segment, and rejoin. -/
def dropLastSegment (url : String) : String :=
  String.mk (joinChars '/' ((splitChar '/' url.data).dropLast))

/-- Model of SECScraper.extract_10k_urls (scraper.py lines 117-126): append
one derived base URL per entry of all_10ks_summary_urls onto the instance
list all_10ks_urls, which is not cleared first. -/
def extract_10k_urls (st : ScraperState) : ScraperState :=
  ScraperState.mk st.ticker st.cik st.company st.all_10ks_summary_urls
    (st.all_10ks_urls ++ st.all_10ks_summary_urls.map dropLastSegment)

/-- One DataFrame cell: a string, a float (exact rational; the verified
scenarios only involve exactly representable decimals), or a missing value
(None or NaN). -/
inductive Cell where
  | str (s : String)
  | num (q : Rat)
  | null
deriving DecidableEq, Repr

/-- DataFrame shape used by the normalizer and aggregator: named columns
plus rows, each row carrying its integer index label (pd.DataFrame over a
row list labels rows 0,1,2,...; dropna keeps the original labels). -/
structure Df where
  cols : List String
  rows : List (Nat × List Cell)
deriving DecidableEq, Repr

/-- Width of pd.DataFrame over a list of raw rows: one column per cell of
the longest row. -/
def pdMaxWidth (rows : List (List String)) : Nat :=
  rows.foldr (fun r acc => max r.length acc) 0

/-- Pad one raw row to the frame width; missing trailing cells become
None. -/
def padRow (w : Nat) (r : List String) : List Cell :=
  (List.range w).map (fun j => match r.get? j with
    | some s => Cell.str s
    | none => Cell.null)

/-- Keep test of the category filter (scraper.py lines 254-255): replace
the empty string by NaN in the category column (the first cell), then drop
rows whose category is NaN; so empty-string and missing categories go. -/
def keepRow (cells : List Cell) : Bool :=
  match cells.head? with
  | some (Cell.str s) => !(s == "")
  | some (Cell.num _) => true
  | some Cell.null => false
  | none => false

/-- Lines 258-259 applied to one cell: the regex replacements rewrite
string cells and leave non-string cells untouched. -/
def cleanCell : Cell → Cell
  | Cell.str s => Cell.str (cleanStr s)
  | c => c

/-- Line 263 applied to one cell of an object column: .str.strip() strips
string elements and turns non-string elements into NaN. -/
def stripCell : Cell → Cell
  | Cell.str s => Cell.str (pyStrip s)
  | _ => Cell.null

/-- Whether astype(float) succeeds on one cell: strings must parse as
float literals; missing values become float NaN; floats stay floats. -/
def cellFloatable : Cell → Bool
  | Cell.str s => (pyFloat s).isSome
  | _ => true

/-- Float conversion of one cell where defined; unparsable strings are
left alone (only reachable when the whole column is left alone). -/
def convertCell : Cell → Cell
  | Cell.str s =>
    (match pyFloat s with
     | some q => Cell.num q
     | none => Cell.str s)
  | c => c

/-- Line 266, df.astype(float, errors='ignore'): after the per-column
assignment of line 263 each column lives in its own block, so the cast is
attempted per column; a column is converted only if every one of its cells
converts, and is otherwise left unchanged. -/
def astypeRows (rows : List (Nat × List Cell)) : List (Nat × List Cell) :=
  let conv : Nat → Bool := fun j =>
    rows.all (fun p => match p.2.get? j with
      | some c => cellFloatable c
      | none => true)
  rows.map (fun p =>
    (p.1, p.2.enum.map (fun q => if conv q.1 then convertCell q.2 else q.2)))

/-- One row step of line 267, df.replace('', None, inplace=True): with
value None and a scalar to_replace, pandas fills every cell equal to '' by
the preceding non-empty value of its column (fillna-style pad); a leading
match with no predecessor is left in place.  The second argument is the
per-column memory of the last non-matching value; the result pairs the
rewritten row with the updated memory. -/
def padCellsStep : List Cell → List (Option Cell) → List Cell × List (Option Cell)
  | [], _ => ([], [])
  | c :: cs, [] =>
    let rest := padCellsStep cs []
    if c = Cell.str "" then (c :: rest.1, none :: rest.2)
    else (c :: rest.1, some c :: rest.2)
  | c :: cs, l :: ls =>
    let rest := padCellsStep cs ls
    if c = Cell.str "" then
      ((match l with
        | some v => v
        | none => c) :: rest.1, l :: rest.2)
    else (c :: rest.1, some c :: rest.2)

/-- Line 267 over all rows, top to bottom, columns independent. -/
def padReplaceRows : List (Nat × List Cell) → List (Option Cell) → List (Nat × List Cell)
  | [], _ => []
  | p :: ps, last =>
    let r := padCellsStep p.2 last
    (p.1, r.1) :: padReplaceRows ps r.2

/-- Line 242, pd.DataFrame(data): rows labelled 0,1,2,... and padded with
None to the width of the longest row. -/
def buildRows (data : List (List String)) : List (Nat × List Cell) :=
  data.enum.map (fun p => (p.1, padRow (pdMaxWidth data) p.2))

/-- Line 249, df.iloc[:, :2]: keep the first two columns. -/
def selectTwo (rows : List (Nat × List Cell)) : List (Nat × List Cell) :=
  rows.map (fun p => (p.1, p.2.take 2))

/-- Lines 254-255: drop the rows whose category entry is empty or
missing. -/
def dropEmptyCats (rows : List (Nat × List Cell)) : List (Nat × List Cell) :=
  rows.filter (fun p => keepRow p.2)

/-- Lines 258-259 over the whole frame. -/
def cleanRows (rows : List (Nat × List Cell)) : List (Nat × List Cell) :=
  rows.map (fun p => (p.1, p.2.map cleanCell))

/-- Lines 262-263 over the whole frame (all columns are object-typed at
this point). -/
def stripRows (rows : List (Nat × List Cell)) : List (Nat × List Cell) :=
  rows.map (fun p => (p.1, p.2.map stripCell))

/-- Model of SECScraper.make_df_for_single_10k (scraper.py lines 234-269).
The modelled failures are the IndexErrors of the header selection (line
238) and of converted[0] (line 250), the ValueError of strptime (line
246), and the length-mismatch ValueError of the column assignment (line
251).  The pandas semantics modelled are those contemporary with the
source (pre-copy-on-write): the chained in-place replace of line 254
writes through to the frame. -/
def make_df_for_single_10k (statements_data : List RawTableRecord) : Except PdError Df :=
  match statements_data with
  | [] => Except.error PdError.indexError
  | r0 :: _ =>
    match r0.headers.get? 1 with
    | none => Except.error PdError.indexError
    | some header =>
      let data := (statements_data.map (fun r => r.data)).flatten
      match header.mapM strptimeBDY with
      | none => Except.error PdError.dateParseError
      | some converted =>
        match converted with
        | [] => Except.error PdError.indexError
        | c0 :: _ =>
          let category_column := "Category " ++ Nat.repr c0.year
          let newCols := category_column :: header.take 1
          if min (pdMaxWidth data) 2 = newCols.length then
            Except.ok (Df.mk newCols (padReplaceRows
              (astypeRows (stripRows (cleanRows (dropEmptyCats (selectTwo (buildRows data))))))
              (List.replicate newCols.length none)))
          else Except.error PdError.lengthMismatch

/-- Row lookup by index label, filling absent labels with NaN (outer
alignment of pd.concat). -/
def rowAt (df : Df) (i : Nat) : List Cell :=
  match df.rows.find? (fun p => p.1 == i) with
  | some p => p.2
  | none => List.replicate df.cols.length Cell.null

/-- Insertion into a sorted list of labels. -/
def insertSorted (i : Nat) : List Nat → List Nat
  | [] => [i]
  | j :: js => if i ≤ j then i :: j :: js else j :: insertSorted i js

/-- Insertion sort of index labels. -/
def sortNat (l : List Nat) : List Nat := l.foldr insertSorted []

/-- pd.concat([a, b], axis=1) (scraper.py line 71): columns side by side;
when the two row indexes coincide the rows are aligned positionally,
otherwise the result is the outer join on the sorted union of labels with
NaN fill. -/
def concatAxis1 (a b : Df) : Df :=
  let ia := a.rows.map (fun p => p.1)
  let ib := b.rows.map (fun p => p.1)
  let idx := if ia = ib then ia
    else sortNat (ia ++ ib.filter (fun i => !(ia.contains i)))
  Df.mk (a.cols ++ b.cols) (idx.map (fun i => (i, rowAt a i ++ rowAt b i)))

/-- Model of the aggregation loop of SECScraper.execute (scraper.py lines
55-75), taking as input the already-scraped statement records of each
filing in the order of all_10ks_urls (the identifier resolution, crawling
and fetching that produce them are modelled separately).  years = 2 (line
56): the loop normalizes the first two filings and concatenates their
tables column-wise; fewer than two filings hits the all_10ks_urls[i]
IndexError.  The loop body has no exception handler, so any exception
raised by make_df_for_single_10k propagates and aborts the whole run. -/
def execute (statements_per_filing : List (List RawTableRecord)) : Except PdError Df :=
  match statements_per_filing with
  | f0 :: f1 :: _ =>
    (make_df_for_single_10k f0).bind (fun d0 =>
      Except.map (fun d1 => concatAxis1 d0 d1) (make_df_for_single_10k f1))
  | _ => Except.error PdError.indexError

deriving instance DecidableEq for Except

/-- Fabricated filing with one data row and period header Dec. 31, 2022
(the two-year scenario of the spec's testable properties). -/
def filing2022 : List RawTableRecord :=
  [RawTableRecord.mk [["Header"], ["Dec. 31, 2022"]] [] [["Revenue", "$1,234"]]]

/-- Same fabricated filing for the sibling year 2021. -/
def filing2021 : List RawTableRecord :=
  [RawTableRecord.mk [["Header"], ["Dec. 31, 2021"]] [] [["Revenue", "$1,234"]]]

/-- Fabricated filing whose period-date header does not match the fixed
month-abbreviation format of line 246. -/
def filingBadDate : List RawTableRecord :=
  [RawTableRecord.mk [["Header"], ["December 31, 2020"]] [] [["Revenue", "$1,234"]]]

/-- Fabricated filing whose single data row has a whitespace-only
category cell. -/
def filingBlankCategory : List RawTableRecord :=
  [RawTableRecord.mk [["Header"], ["Dec. 31, 2022"]] [] [[" ", "$1"]]]

/-- Expected MasterDataset of the fabricated two-year scenario. -/
def c6Master : Df :=
  Df.mk ["Category 2022", "Dec. 31, 2022", "Category 2021", "Dec. 31, 2021"]
    [(0, [Cell.str "Revenue", Cell.num 1234, Cell.str "Revenue", Cell.num 1234])]

/-- Category-filled test of one row: its first cell (the category entry)
is neither the empty string nor missing.  Rows without cells pass
vacuously (normalizer output rows always carry two cells). -/
def catFilled (cells : List Cell) : Bool :=
  match cells.head? with
  | some (Cell.str s) => !(s == "")
  | some (Cell.num _) => true
  | some Cell.null => false
  | none => true

/-- Every row of a table has a filled category entry. -/
def dfCatsFilled (df : Df) : Bool := df.rows.all (fun p => catFilled p.2)

/-- Output of the normalizer on the whitespace-only-category filing. -/
def blankCatOut : Df :=
  Df.mk ["Category 2022", "Dec. 31, 2022"] [(0, [Cell.str "", Cell.num 1])]

example : make_df_for_single_10k filing2022 =
    Except.ok (Df.mk ["Category 2022", "Dec. 31, 2022"]
      [(0, [Cell.str "Revenue", Cell.num 1234])]) := by decide

example : execute [filing2022, filing2021] =
    Except.ok (Df.mk ["Category 2022", "Dec. 31, 2022", "Category 2021", "Dec. 31, 2021"]
      [(0, [Cell.str "Revenue", Cell.num 1234, Cell.str "Revenue", Cell.num 1234])]) := by
  decide

example : execute [filing2022, filingBadDate] = Except.error PdError.dateParseError := by
  decide

example : make_df_for_single_10k filingBlankCategory =
    Except.ok (Df.mk ["Category 2022", "Dec. 31, 2022"]
      [(0, [Cell.str "", Cell.num 1])]) := by decide

example : cleanStr ("$1,234") = "1234" := by decide
example : cleanStr ("(1,234)") = "-1234" := by decide
example : pyFloat ("1234") = some 1234 := by decide
example : pyFloat ("Revenue") = none := by decide
example : pyFloat ("") = none := by decide
example : strptimeBDY ("Dec. 31, 2022") = some (PyDate.mk 2022 12 31) := by decide
example : strptimeBDY ("December 31, 2022") = none := by decide
example : zfill 10 ("789019") = "0000789019" := by decide
example : pyStrip (" msft ") = "msft" := by decide

/-- Characters surviving the cleaning pass are none of the deleted
punctuation characters and never an opening parenthesis. -/
theorem mem_cleanChars (cs : List Char) :
    ∀ c ∈ cleanChars cs, (!(c = '$' || c = ',' || c = ')')) = true ∧ c ≠ '(' := by
  intro c hc
  obtain ⟨a, ha, rfl⟩ := List.mem_map.1 hc
  have hpa := List.of_mem_filter ha
  by_cases h : a = '('
  · subst h
    exact ⟨by decide, by decide⟩
  · simp only [if_neg h]
    exact ⟨hpa, h⟩

/-- The character-level cleaning pass is idempotent. -/
theorem cleanChars_idem (cs : List Char) : cleanChars (cleanChars cs) = cleanChars cs := by
  show ((cleanChars cs).filter _).map _ = cleanChars cs
  rw [List.filter_eq_self.mpr (fun c hc => (mem_cleanChars cs c hc).1)]
  have : ∀ c ∈ cleanChars cs, (if c = '(' then '-' else c) = id c := by
    intro c hc
    simp [(mem_cleanChars cs c hc).2]
  rw [List.map_congr_left this, List.map_id]

/-- C8: the currency-string cleaning of scraper.py lines 258-259 (delete
dollar signs, commas and closing parentheses, then turn opening
parentheses into minus signs) is idempotent on every string. -/
theorem c8_cleaning_idempotent (s : String) : cleanStr (cleanStr s) = cleanStr s := by
  show String.mk (cleanChars (cleanChars s.data)) = String.mk (cleanChars s.data)
  rw [cleanChars_idem]

/-- C4: the row classifier of scraper.py lines 213-228 never reaches the
error branch, its three guards are pairwise exclusive and jointly
exhaustive, and each guard sends the row to its own category. -/
theorem c4_classifier_total (r : HtmlRow) :
    classifyRow r ≠ RowClass.error ∧
    ¬(guardData r ∧ guardSection r) ∧
    ¬(guardData r ∧ guardHeader r) ∧
    ¬(guardSection r ∧ guardHeader r) ∧
    (guardData r ∨ guardSection r ∨ guardHeader r) ∧
    (guardData r → classifyRow r = RowClass.data) ∧
    (guardSection r → classifyRow r = RowClass.sectionLabel) ∧
    (guardHeader r → classifyRow r = RowClass.header) := by
  unfold classifyRow guardData guardSection guardHeader
  by_cases h1 : r.th.length = 0 <;> by_cases h2 : r.strong = 0 <;> simp [h1, h2]

/-- C4 witness: a row with no header cells and no emphasis markers is
classified as a data row. -/
theorem c4_classifier_witness :
    classifyRow (HtmlRow.mk [] 0 ["Revenue", "$1,234"]) = RowClass.data :=
  (c4_classifier_total (HtmlRow.mk [] 0 ["Revenue", "$1,234"])).2.2.2.2.2.1 ⟨rfl, rfl⟩

/-- C5: scrape_data_for_single_10k never consults its statement-name
mapping, so its result is identical for any two mappings, and the document
slots it fetches are the fixed R2.htm through R10.htm under the filing
base URL. -/
theorem c5_mapping_independent (base_url : String) (m1 m2 : List (String × String))
    (fetch : String → List HtmlRow) :
    scrape_data_for_single_10k base_url m1 fetch = scrape_data_for_single_10k base_url m2 fetch ∧
    statements_urls base_url =
      [base_url ++ "/" ++ "R2.htm", base_url ++ "/" ++ "R3.htm", base_url ++ "/" ++ "R4.htm",
       base_url ++ "/" ++ "R5.htm", base_url ++ "/" ++ "R6.htm", base_url ++ "/" ++ "R7.htm",
       base_url ++ "/" ++ "R8.htm", base_url ++ "/" ++ "R9.htm", base_url ++ "/" ++ "R10.htm"] :=
  ⟨rfl, rfl⟩

/-- C10: extract_10k_urls appends the derived base URLs onto all_10ks_urls
without clearing it, so on an instance whose summary list is populated and
whose all_10ks_urls starts empty, two calls are not idempotent and leave
every derived base URL in the list twice. -/
theorem c10_extract_not_idempotent (t : String) (urls : List String) (hne : urls ≠ []) :
    (extract_10k_urls (extract_10k_urls (ScraperState.mk t none none urls []))).all_10ks_urls
      = urls.map dropLastSegment ++ urls.map dropLastSegment ∧
    extract_10k_urls (extract_10k_urls (ScraperState.mk t none none urls []))
      ≠ extract_10k_urls (ScraperState.mk t none none urls []) ∧
    ∀ u, ((extract_10k_urls (extract_10k_urls
        (ScraperState.mk t none none urls []))).all_10ks_urls).count u
      = 2 * (urls.map dropLastSegment).count u := by
  refine ⟨rfl, ?_, ?_⟩
  · intro h
    have h2 := congrArg (fun st => st.all_10ks_urls.length) h
    simp only [extract_10k_urls, List.nil_append, List.length_append, List.length_map] at h2
    have : urls.length = 0 := by omega
    exact hne (List.length_eq_zero.mp this)
  · intro u
    show (urls.map dropLastSegment ++ urls.map dropLastSegment).count u = _
    rw [List.count_append, Nat.two_mul]

/-- C10 witness: two calls on a fresh instance holding one summary URL
leave its derived base URL in all_10ks_urls twice. -/
theorem c10_extract_witness :
    (extract_10k_urls (extract_10k_urls (ScraperState.mk ("MSFT") none none
        ["http://sec.gov/Archives/data/0001-index.htm"] []))).all_10ks_urls
      = ["http://sec.gov/Archives/data", "http://sec.gov/Archives/data"] :=
  (c10_extract_not_idempotent ("MSFT") ["http://sec.gov/Archives/data/0001-index.htm"]
    (by decide)).1.trans (by decide)

/-- C3: when no entry of the lookup table matches the normalized (trimmed,
upper-cased) identifier, find_cik fails with the not-found error (KeyError;
the spec's NotFoundError), and its effect trace contains no HTTP request. -/
theorem c3_not_found_no_network (lookup : List LookupEntry) (ticker : String)
    (habs : ∀ e ∈ lookup, e.ticker ≠ pyUpper (pyStrip ticker)) :
    (find_cik lookup ticker).1 = Except.error LookupError.notFound ∧
    ∀ ef ∈ (find_cik lookup ticker).2, ∀ url, ef ≠ Effect.httpGet url := by
  have hfind : lookup.find? (fun e => e.ticker == pyUpper (pyStrip ticker)) = none := by
    rw [List.find?_eq_none]
    intro e he
    simpa using habs e he
  constructor
  · simp [find_cik, hfind]
  · intro ef hef url
    have hf : ef = Effect.fileRead ("backend/static/cik.json") := by
      simpa [find_cik, hfind] using hef
    simp [hf]

/-- C3 witness: an identifier absent from a one-entry table fails the
lookup. -/
theorem c3_not_found_witness :
    (find_cik [LookupEntry.mk 789019 "MSFT" "MICROSOFT CORP"] "ZZZZ").1
      = Except.error LookupError.notFound :=
  (c3_not_found_no_network [LookupEntry.mk 789019 "MSFT" "MICROSOFT CORP"] "ZZZZ"
    (by decide)).1

/-- C9: make_df_for_single_10k raises IndexError at the header selection of
line 238 exactly when the input is empty or its first record has fewer
than two header rows; a normal return implies the first record has at
least two header rows. -/
theorem c9_header_index_error (sd : List RawTableRecord) :
    ((sd = [] ∨ ∃ r rest, sd = r :: rest ∧ r.headers.length < 2) →
      make_df_for_single_10k sd = Except.error PdError.indexError) ∧
    (∀ df, make_df_for_single_10k sd = Except.ok df →
      ∃ r rest, sd = r :: rest ∧ 2 ≤ r.headers.length) := by
  constructor
  · rintro (rfl | ⟨r, rest, rfl, hlt⟩)
    · rfl
    · have hget : r.headers[1]? = none := by
        rw [List.getElem?_eq_none_iff]
        omega
      simp [make_df_for_single_10k, hget]
  · intro df hok
    cases sd with
    | nil => exact Except.noConfusion hok
    | cons r rest =>
      refine ⟨r, rest, rfl, ?_⟩
      by_contra hlt
      have hget : r.headers[1]? = none := by
        rw [List.getElem?_eq_none_iff]
        omega
      simp [make_df_for_single_10k, hget] at hok

/-- C9 witness: the empty record list hits the IndexError. -/
theorem c9_empty_input_witness :
    make_df_for_single_10k [] = Except.error PdError.indexError :=
  (c9_header_index_error []).1 (Or.inl rfl)

/-- Digit characters emitted by Nat.digitChar below base 10 are decimal
digits. -/
theorem digitChar_isDigit (d : Nat) (h : d < 10) : (Nat.digitChar d).isDigit = true := by
  interval_cases d <;> decide

/-- Nat.toDigitsCore at base 10 only ever conses decimal digits onto its
accumulator. -/
theorem toDigitsCore_ten_digits : ∀ (fuel n : Nat) (ds : List Char),
    (∀ c ∈ ds, c.isDigit = true) → ∀ c ∈ Nat.toDigitsCore 10 fuel n ds, c.isDigit = true := by
  intro fuel
  induction fuel with
  | zero =>
    intro n ds hds c hc
    exact hds c hc
  | succ fuel ih =>
    intro n ds hds c hc
    rw [Nat.toDigitsCore] at hc
    have hdigit : (Nat.digitChar (n % 10)).isDigit = true :=
      digitChar_isDigit (n % 10) (Nat.mod_lt n (by decide))
    by_cases h0 : n / 10 = 0
    · rw [if_pos h0] at hc
      rcases List.mem_cons.mp hc with rfl | hmem
      · exact hdigit
      · exact hds c hmem
    · rw [if_neg h0] at hc
      refine ih (n / 10) (Nat.digitChar (n % 10) :: ds) ?_ c hc
      intro x hx
      rcases List.mem_cons.mp hx with rfl | hmem
      · exact hdigit
      · exact hds x hmem

/-- Every character of the decimal representation of a natural number is a
digit. -/
theorem natRepr_digits (n : Nat) : ∀ c ∈ (Nat.repr n).data, c.isDigit = true := by
  intro c hc
  have hrepr : (Nat.repr n).data = Nat.toDigitsCore 10 (n + 1) n [] := rfl
  rw [hrepr] at hc
  exact toDigitsCore_ten_digits (n + 1) n []
    (fun x hx => absurd hx (List.not_mem_nil x)) c hc

/-- Nat.toDigitsCore never returns the empty list when its accumulator is
nonempty. -/
theorem toDigitsCore_ten_ne_nil : ∀ (fuel n : Nat) (ds : List Char), ds ≠ [] →
    Nat.toDigitsCore 10 fuel n ds ≠ [] := by
  intro fuel
  induction fuel with
  | zero =>
    intro n ds hds
    exact hds
  | succ fuel ih =>
    intro n ds hds
    rw [Nat.toDigitsCore]
    by_cases h0 : n / 10 = 0
    · rw [if_pos h0]
      exact List.cons_ne_nil _ _
    · rw [if_neg h0]
      exact ih (n / 10) _ (List.cons_ne_nil _ _)

/-- The decimal representation of a natural number is nonempty. -/
theorem natRepr_ne_nil (n : Nat) : (Nat.repr n).data ≠ [] := by
  have hrepr : (Nat.repr n).data = Nat.toDigitsCore 10 (n + 1) n [] := rfl
  rw [hrepr, Nat.toDigitsCore]
  by_cases h0 : n / 10 = 0
  · rw [if_pos h0]
    exact List.cons_ne_nil _ _
  · rw [if_neg h0]
    exact toDigitsCore_ten_ne_nil n (n / 10) _ (List.cons_ne_nil _ _)

/-- Zero-filling the decimal representation of a number of at most ten
digits yields a string of exactly ten characters, all digits. -/
theorem zfill_natRepr (n : Nat) (h : (Nat.repr n).length ≤ 10) :
    (zfill 10 (Nat.repr n)).length = 10 ∧
    (zfill 10 (Nat.repr n)).data.all Char.isDigit = true := by
  by_cases hlt : (Nat.repr n).length < 10
  · cases hd : (Nat.repr n).data with
    | nil => exact absurd hd (natRepr_ne_nil n)
    | cons c rest =>
      have hcd : c.isDigit = true :=
        natRepr_digits n c (by rw [hd]; exact List.mem_cons_self c rest)
      have hnsign : ¬(c = '+' ∨ c = '-') := by
        rintro (rfl | rfl) <;> exact absurd hcd (by decide)
      have hz : zfill 10 (Nat.repr n) =
          String.mk (List.replicate (10 - (Nat.repr n).length) '0' ++ (Nat.repr n).data) := by
        unfold zfill
        rw [if_pos hlt, hd]
        exact if_neg hnsign
      have hlen : (Nat.repr n).data.length = (Nat.repr n).length := rfl
      constructor
      · rw [hz]
        show (List.replicate (10 - (Nat.repr n).length) '0' ++ (Nat.repr n).data).length = 10
        rw [List.length_append, List.length_replicate]
        omega
      · rw [hz]
        show (List.replicate (10 - (Nat.repr n).length) '0' ++ (Nat.repr n).data).all _ = true
        rw [List.all_eq_true]
        intro x hx
        rcases List.mem_append.mp hx with hx | hx
        · rw [List.eq_of_mem_replicate hx]
          decide
        · exact natRepr_digits n x hx
  · have h10 : (Nat.repr n).length = 10 := by omega
    have hz : zfill 10 (Nat.repr n) = Nat.repr n := by
      unfold zfill
      rw [if_neg hlt]
    refine ⟨by rw [hz, h10], ?_⟩
    rw [hz, List.all_eq_true]
    intro c hc
    exact natRepr_digits n c hc

/-- C7: for an identifier present in the lookup table (with distinct
tickers and a key of at most ten digits, the well-formedness the spec
assumes of the table), resolution is invariant across whitespace and case
variants of the identifier and returns the table's registrant key
zero-padded to exactly ten characters, all digits. -/
theorem c7_resolution_fixed_width (lookup : List LookupEntry) (e : LookupEntry)
    (v1 v2 : String)
    (hnd : (lookup.map (fun x => x.ticker)).Nodup)
    (hmem : e ∈ lookup)
    (hkey : e.ticker = pyUpper (pyStrip v1))
    (hvar : pyUpper (pyStrip v1) = pyUpper (pyStrip v2))
    (hwidth : (Nat.repr e.cik_str).length ≤ 10) :
    find_cik lookup v1 = find_cik lookup v2 ∧
    (find_cik lookup v1).1 = Except.ok (zfill 10 (Nat.repr e.cik_str), e.title) ∧
    (zfill 10 (Nat.repr e.cik_str)).length = 10 ∧
    (zfill 10 (Nat.repr e.cik_str)).data.all Char.isDigit = true := by
  have hcong : find_cik lookup v1 = find_cik lookup v2 := by
    unfold find_cik
    rw [hvar]
  have hfind : lookup.find? (fun x => x.ticker == pyUpper (pyStrip v1)) = some e := by
    have hsome : (lookup.find? (fun x => x.ticker == pyUpper (pyStrip v1))).isSome := by
      rw [List.find?_isSome]
      exact ⟨e, hmem, by simp [hkey]⟩
    obtain ⟨a, ha⟩ := Option.isSome_iff_exists.mp hsome
    have hpa := List.find?_some ha
    have hamem := List.mem_of_find?_eq_some ha
    have haticker : a.ticker = e.ticker := by
      rw [hkey]
      exact eq_of_beq hpa
    have hae : a = e :=
      List.inj_on_of_nodup_map hnd hamem hmem haticker
    rw [ha, hae]
  refine ⟨hcong, ?_, (zfill_natRepr e.cik_str hwidth).1, (zfill_natRepr e.cik_str hwidth).2⟩
  simp [find_cik, hfind]

/-- C7 witness: on a one-entry table, the variant identifier with
whitespace and lower case resolves exactly as the canonical one, to the
ten-character zero-padded key. -/
theorem c7_resolution_witness :
    find_cik [LookupEntry.mk 789019 "MSFT" "MICROSOFT CORP"] " msft "
      = find_cik [LookupEntry.mk 789019 "MSFT" "MICROSOFT CORP"] "MSFT" ∧
    (find_cik [LookupEntry.mk 789019 "MSFT" "MICROSOFT CORP"] " msft ").1
      = Except.ok ("0000789019", "MICROSOFT CORP") := by
  have h := c7_resolution_fixed_width [LookupEntry.mk 789019 "MSFT" "MICROSOFT CORP"]
    (LookupEntry.mk 789019 "MSFT" "MICROSOFT CORP") " msft " "MSFT"
    (by decide) (by decide) (by decide) (by decide) (by decide)
  exact ⟨h.1, h.2.1.trans (by decide)⟩

/-- C6: on the fabricated two-filing input (one data row Revenue / $1,234
per filing, period headers Dec. 31, 2022 and Dec. 31, 2021), the
aggregated output has exactly two value columns (the non-category
columns), and the Revenue row carries the float 1234.0 in each of them. -/
theorem c6_two_year_scenario :
    execute [filing2022, filing2021] = Except.ok c6Master ∧
    (c6Master.cols.filter
      (fun c => !(List.isPrefixOf ("Category".data) c.data))).length = 2 ∧
    c6Master.rows =
      [(0, [Cell.str "Revenue", Cell.num 1234, Cell.str "Revenue", Cell.num 1234])] :=
  ⟨by decide, by decide, by decide⟩

/-- C2 counterexample: with two filings of which exactly the second has an
unparsable period header, the first filing alone normalizes fine, yet
execute propagates the date-parse exception and returns no MasterDataset
at all, instead of a dataset with the healthy filing's columns. -/
theorem c2_batch_counterexample :
    make_df_for_single_10k filing2022 =
      Except.ok (Df.mk ["Category 2022", "Dec. 31, 2022"]
        [(0, [Cell.str "Revenue", Cell.num 1234])]) ∧
    make_df_for_single_10k filingBadDate = Except.error PdError.dateParseError ∧
    execute [filing2022, filingBadDate] = Except.error PdError.dateParseError :=
  ⟨by decide, by decide, by decide⟩

/-- C2 amended: the loop body of execute has no exception handler, so when
the normalization of either of the two processed filings raises (in
particular on an unparsable period-date header), the whole run aborts with
that exception and no MasterDataset is returned; sibling filings do not
survive the failure. -/
theorem c2_abort_on_filing_error (f0 f1 : List RawTableRecord)
    (rest : List (List RawTableRecord)) (e : PdError)
    (hfail : make_df_for_single_10k f0 = Except.error e ∨
      ((∃ d, make_df_for_single_10k f0 = Except.ok d) ∧
        make_df_for_single_10k f1 = Except.error e)) :
    execute (f0 :: f1 :: rest) = Except.error e := by
  rcases hfail with h | ⟨⟨d, hd⟩, h⟩
  · show (make_df_for_single_10k f0).bind _ = _
    rw [h]
    rfl
  · show (make_df_for_single_10k f0).bind _ = _
    rw [hd]
    show Except.map _ (make_df_for_single_10k f1) = _
    rw [h]
    rfl

/-- C2 amended witness: the concrete two-filing batch with one bad date
header aborts with the date-parse error. -/
theorem c2_abort_witness :
    execute [filing2022, filingBadDate] = Except.error PdError.dateParseError :=
  c2_abort_on_filing_error filing2022 filingBadDate [] PdError.dateParseError
    (Or.inr ⟨⟨Df.mk ["Category 2022", "Dec. 31, 2022"]
      [(0, [Cell.str "Revenue", Cell.num 1234])], by decide⟩, by decide⟩)

/-- C1 counterexample: a whitespace-only category cell passes the
empty-category filter of lines 254-255 (the filter runs before the
stripping of line 263), is stripped to the empty string afterwards, and
reaches the output: the normalized table contains a row whose category
entry is the empty string. -/
theorem c1_blank_category_counterexample :
    make_df_for_single_10k filingBlankCategory = Except.ok blankCatOut ∧
    dfCatsFilled blankCatOut = false :=
  ⟨by decide, by decide⟩

/-- Taking two cells does not change the leading cell. -/
theorem head?_take2 (l : List Cell) : (l.take 2).head? = l.head? := by
  cases l <;> rfl

/-- Leading cell of a padded row of positive width. -/
theorem padRow_head (w : Nat) (row : List String) (hw : 0 < w) :
    (padRow w row).head? = some (match row.get? 0 with
      | some s => Cell.str s
      | none => Cell.null) := by
  cases w with
  | zero => omega
  | succ n =>
    rw [padRow, List.range_succ_eq_map]
    rfl

/-- Leading element of an enumerated-and-mapped list. -/
theorem head_enum_map {α β : Type} (g : Nat × α → β) (l : List α) (a : α)
    (h : l.head? = some a) : ((l.enum.map g)).head? = some (g (0, a)) := by
  cases l with
  | nil => cases h
  | cons x xs =>
    obtain rfl := Option.some.inj h
    rfl

/-- Float conversion keeps a leading cell non-empty and non-missing. -/
theorem convertCell_preserves (c : Cell) (h1 : c ≠ Cell.str "") (h2 : c ≠ Cell.null) :
    convertCell c ≠ Cell.str "" ∧ convertCell c ≠ Cell.null := by
  cases c with
  | str s =>
    simp only [convertCell]
    cases hps : pyFloat s with
    | some q => exact ⟨fun h => Cell.noConfusion h, fun h => Cell.noConfusion h⟩
    | none => exact ⟨h1, fun h => Cell.noConfusion h⟩
  | num q => exact ⟨fun h => Cell.noConfusion h, fun h => Cell.noConfusion h⟩
  | null => exact absurd rfl h2

/-- The per-column float cast preserves filled category entries. -/
theorem astypeRows_preserves (rows : List (Nat × List Cell))
    (h : ∀ p ∈ rows, ∀ c, p.2.head? = some c → c ≠ Cell.str "" ∧ c ≠ Cell.null) :
    ∀ p ∈ astypeRows rows, ∀ c, p.2.head? = some c →
      c ≠ Cell.str "" ∧ c ≠ Cell.null := by
  intro p hp c hc
  simp only [astypeRows, List.mem_map] at hp
  obtain ⟨q, hq, rfl⟩ := hp
  cases hq2 : q.2.head? with
  | none =>
    have hnil : q.2 = [] := List.head?_eq_none_iff.mp hq2
    rw [hnil] at hc
    exact Option.noConfusion hc
  | some c0 =>
    have hprops := h q hq c0 hq2
    rw [head_enum_map _ q.2 c0 hq2] at hc
    obtain rfl := Option.some.inj hc
    show (if _ then convertCell c0 else c0) ≠ Cell.str "" ∧
      (if _ then convertCell c0 else c0) ≠ Cell.null
    split
    · exact convertCell_preserves c0 hprops.1 hprops.2
    · exact hprops

/-- The pad step of line 267 leaves a non-empty leading cell unchanged. -/
theorem padCellsStep_head (cells : List Cell) (last : List (Option Cell)) (c : Cell)
    (hc : cells.head? = some c) (hne : c ≠ Cell.str "") :
    (padCellsStep cells last).1.head? = some c := by
  cases cells with
  | nil => cases hc
  | cons c0 cs =>
    obtain rfl := Option.some.inj hc
    cases last with
    | nil =>
      simp only [padCellsStep]
      split <;> rfl
    | cons l ls =>
      simp only [padCellsStep]
      rw [if_neg hne]
      rfl

/-- The pad replacement of line 267 preserves filled category entries. -/
theorem padReplaceRows_preserves :
    ∀ (rows : List (Nat × List Cell)) (last : List (Option Cell)),
    (∀ p ∈ rows, ∀ c, p.2.head? = some c → c ≠ Cell.str "" ∧ c ≠ Cell.null) →
    ∀ p ∈ padReplaceRows rows last, ∀ c, p.2.head? = some c →
      c ≠ Cell.str "" ∧ c ≠ Cell.null := by
  intro rows
  induction rows with
  | nil =>
    intro last h p hp
    simp [padReplaceRows] at hp
  | cons q qs ih =>
    intro last h p hp
    simp only [padReplaceRows] at hp
    rcases List.mem_cons.mp hp with rfl | hmem
    · intro c hc
      cases hq : q.2.head? with
      | none =>
        have hnil : q.2 = [] := List.head?_eq_none_iff.mp hq
        rw [hnil] at hc
        exact Option.noConfusion hc
      | some c0 =>
        have hprops := h q (List.mem_cons_self q qs) c0 hq
        have hh := padCellsStep_head q.2 last c0 hq hprops.1
        rw [hh] at hc
        obtain rfl := Option.some.inj hc
        exact hprops
    · exact ih _ (fun r hr => h r (List.mem_cons_of_mem q hr)) p hmem

/-- Rows surviving the category filter and then cleaned and stripped have,
under the cleaning-safety precondition on raw category cells, a non-empty
non-missing category entry. -/
theorem staged_cats (sd : List RawTableRecord)
    (hcells : ∀ r ∈ sd, ∀ row ∈ r.data, ∀ c, row.head? = some c →
      c = "" ∨ pyStrip (cleanStr c) ≠ "") :
    ∀ p ∈ stripRows (cleanRows (dropEmptyCats (selectTwo (buildRows
        ((sd.map (fun r => r.data)).flatten))))),
      ∀ c, p.2.head? = some c → c ≠ Cell.str "" ∧ c ≠ Cell.null := by
  intro p hp c hc
  simp only [stripRows, List.mem_map] at hp
  obtain ⟨q3, hq3, rfl⟩ := hp
  simp only [cleanRows, List.mem_map] at hq3
  obtain ⟨q2, hq2, rfl⟩ := hq3
  simp only [dropEmptyCats] at hq2
  have hkeep : keepRow q2.2 = true := by
    have h0 := List.of_mem_filter hq2
    simpa using h0
  have hq1 : q2 ∈ selectTwo (buildRows ((sd.map (fun r => r.data)).flatten)) :=
    List.mem_of_mem_filter hq2
  simp only [selectTwo, List.mem_map] at hq1
  obtain ⟨q0, hq0, rfl⟩ := hq1
  simp only [buildRows, List.mem_map] at hq0
  obtain ⟨en, hen, rfl⟩ := hq0
  have hrow : en.2 ∈ (sd.map (fun r => r.data)).flatten := by
    have h1 := List.mem_map_of_mem Prod.snd hen
    rwa [List.enum_map_snd] at h1
  obtain ⟨dl, hdl, hrowin⟩ := List.mem_flatten.mp hrow
  obtain ⟨rec, hr, rfl⟩ := List.mem_map.mp hdl
  cases hW : pdMaxWidth ((sd.map (fun r => r.data)).flatten) with
  | zero =>
    rw [hW] at hkeep
    exact Bool.noConfusion hkeep
  | succ n =>
    rw [hW] at hkeep hc
    cases hen2 : en.2 with
    | nil =>
      rw [hen2] at hkeep
      have hh : ((padRow (n + 1) ([] : List String)).take 2).head? = some Cell.null := by
        rw [head?_take2, padRow_head (n + 1) [] (Nat.succ_pos n)]
        rfl
      have hkr : keepRow ((padRow (n + 1) ([] : List String)).take 2) = false := by
        unfold keepRow
        rw [hh]
      rw [hkr] at hkeep
      exact Bool.noConfusion hkeep
    | cons s0 srest =>
      rw [hen2] at hkeep hc hrowin
      have hh : ((padRow (n + 1) (s0 :: srest)).take 2).head? = some (Cell.str s0) := by
        rw [head?_take2, padRow_head (n + 1) (s0 :: srest) (Nat.succ_pos n)]
        rfl
      have hkr : keepRow ((padRow (n + 1) (s0 :: srest)).take 2) = !(s0 == "") := by
        unfold keepRow
        rw [hh]
      rw [hkr] at hkeep
      have hs0 : s0 ≠ "" := by
        intro h0
        rw [h0] at hkeep
        exact Bool.noConfusion hkeep
      have hdis := hcells rec hr (s0 :: srest) hrowin s0 rfl
      have hclean : pyStrip (cleanStr s0) ≠ "" := hdis.resolve_left hs0
      have hfinal : ((((padRow (n + 1) (s0 :: srest)).take 2).map cleanCell).map
          stripCell).head? = some (Cell.str (pyStrip (cleanStr s0))) := by
        rw [List.head?_map, List.head?_map, hh]
        rfl
      rw [hfinal] at hc
      obtain rfl := Option.some.inj hc
      exact ⟨fun h => hclean (by injection h), fun h => Cell.noConfusion h⟩

/-- C1 amended: the empty-category filter of lines 254-255 runs before the
cleaning of lines 258-259 and the stripping of line 263, so the normalizer
guarantees non-empty, non-missing category entries only for inputs whose
raw category cells are each either exactly the empty string (dropped by
the filter) or still non-empty after currency cleaning and whitespace
stripping.  Whitespace-only or punctuation-only category cells survive the
filter and can reach the output empty.  Under that precondition, every row
of the normalized table has a category entry that is neither the empty
string nor missing. -/
theorem c1_category_nonempty_amended (sd : List RawTableRecord) (df : Df)
    (hcells : ∀ r ∈ sd, ∀ row ∈ r.data, ∀ c, row.head? = some c →
      c = "" ∨ pyStrip (cleanStr c) ≠ "")
    (hok : make_df_for_single_10k sd = Except.ok df) :
    dfCatsFilled df = true := by
  cases sd with
  | nil => exact Except.noConfusion hok
  | cons r0 rest =>
    simp only [make_df_for_single_10k] at hok
    split at hok
    · exact Except.noConfusion hok
    · split at hok
      · exact Except.noConfusion hok
      · split at hok
        · exact Except.noConfusion hok
        · split at hok
          · obtain rfl := Except.ok.inj hok
            simp only [dfCatsFilled]
            rw [List.all_eq_true]
            intro p hp
            have hP := padReplaceRows_preserves _ _
              (astypeRows_preserves _ (staged_cats (r0 :: rest) hcells)) p hp
            cases hh : p.2.head? with
            | none => simp [catFilled, hh]
            | some c =>
              have hcc := hP c hh
              cases c with
              | str s =>
                have hs : s ≠ "" := fun h0 => hcc.1 (by rw [h0])
                simp [catFilled, hh, hs]
              | num q => simp [catFilled, hh]
              | null => exact absurd rfl hcc.2
          · exact Except.noConfusion hok

/-- C1 amended witness: the well-formed fabricated filing yields a table
whose every category entry is filled. -/
theorem c1_category_amended_witness :
    dfCatsFilled (Df.mk ["Category 2022", "Dec. 31, 2022"]
      [(0, [Cell.str "Revenue", Cell.num 1234])]) = true := by
  refine c1_category_nonempty_amended filing2022 _ ?_ (by decide)
  intro r hr row hrow c hc
  simp only [filing2022, List.mem_singleton] at hr
  subst hr
  simp only [List.mem_singleton] at hrow
  subst hrow
  obtain rfl := Option.some.inj hc
  right
  decide
